import Mathlib

/-
Verification of the daily-dataset fetch/enrichment scripts.

The Python scripts under `scripts/` are shallowly embedded below:
  * `fetchJson`        embeds `fetch_json` from `submarine_cable_ingestor.py`
                       and `peeringdb_datasets.py` (they share the loop shape;
                       the retry count and jitter stream are parameters, so both
                       instances are covered).  Upstream behaviour per attempt
                       and the random jitter are supplied as input streams.
  * `fetch_overpass`   embeds `fetch_overpass` from `osm_power.py`.
  * `download_tag`     embeds `download_tag` from `osm_power_node_primary.py`.
  * `enrich_feature`   embeds `enrich_feature` from `submarine_cable_ingestor.py`;
                       the detail payload that `fetch_json(detail_url)` would
                       return is passed in, and the returned Bool records whether
                       the network call was reached.
  * `pipelineResults`  embeds the `ThreadPoolExecutor`/`as_completed` loop of
                       `main` in `submarine_cable_ingestor.py`: results are
                       appended in completion order, modelled by an explicit
                       completion-order index list.
-/

set_option autoImplicit false

namespace DailyDataset

/-- JSON values, as produced by `json.load`.  Numbers are modelled as integers
(the scripts never compute with them, so precision is irrelevant here). -/
inductive Json where
  | null : Json
  | bool : Bool → Json
  | num : Int → Json
  | str : String → Json
  | arr : List Json → Json
  | obj : List (String × Json) → Json
  deriving Inhabited

mutual

/-- Decidable equality on `Json` (the nested `List` fields prevent deriving). -/
def Json.decEq : (a b : Json) → Decidable (a = b)
  | .null, .null => .isTrue rfl
  | .null, .bool _ => .isFalse nofun
  | .null, .num _ => .isFalse nofun
  | .null, .str _ => .isFalse nofun
  | .null, .arr _ => .isFalse nofun
  | .null, .obj _ => .isFalse nofun
  | .bool _, .null => .isFalse nofun
  | .bool a, .bool b =>
    if h : a = b then .isTrue (by rw [h]) else .isFalse (fun hc => h (by injection hc))
  | .bool _, .num _ => .isFalse nofun
  | .bool _, .str _ => .isFalse nofun
  | .bool _, .arr _ => .isFalse nofun
  | .bool _, .obj _ => .isFalse nofun
  | .num _, .null => .isFalse nofun
  | .num _, .bool _ => .isFalse nofun
  | .num a, .num b =>
    if h : a = b then .isTrue (by rw [h]) else .isFalse (fun hc => h (by injection hc))
  | .num _, .str _ => .isFalse nofun
  | .num _, .arr _ => .isFalse nofun
  | .num _, .obj _ => .isFalse nofun
  | .str _, .null => .isFalse nofun
  | .str _, .bool _ => .isFalse nofun
  | .str _, .num _ => .isFalse nofun
  | .str a, .str b =>
    if h : a = b then .isTrue (by rw [h]) else .isFalse (fun hc => h (by injection hc))
  | .str _, .arr _ => .isFalse nofun
  | .str _, .obj _ => .isFalse nofun
  | .arr _, .null => .isFalse nofun
  | .arr _, .bool _ => .isFalse nofun
  | .arr _, .num _ => .isFalse nofun
  | .arr _, .str _ => .isFalse nofun
  | .arr xs, .arr ys =>
    match jsonListDecEq xs ys with
    | .isTrue h => .isTrue (by rw [h])
    | .isFalse h => .isFalse (fun hc => h (by injection hc))
  | .arr _, .obj _ => .isFalse nofun
  | .obj _, .null => .isFalse nofun
  | .obj _, .bool _ => .isFalse nofun
  | .obj _, .num _ => .isFalse nofun
  | .obj _, .str _ => .isFalse nofun
  | .obj _, .arr _ => .isFalse nofun
  | .obj xs, .obj ys =>
    match jsonKvsDecEq xs ys with
    | .isTrue h => .isTrue (by rw [h])
    | .isFalse h => .isFalse (fun hc => h (by injection hc))

/-- Decidable equality on lists of `Json`. -/
def jsonListDecEq : (xs ys : List Json) → Decidable (xs = ys)
  | [], [] => .isTrue rfl
  | [], _ :: _ => .isFalse nofun
  | _ :: _, [] => .isFalse nofun
  | x :: xs, y :: ys =>
    match Json.decEq x y with
    | .isFalse h => .isFalse (fun hc => by injection hc with h1 h2; exact h h1)
    | .isTrue h1 =>
      match jsonListDecEq xs ys with
      | .isTrue h2 => .isTrue (by rw [h1, h2])
      | .isFalse h => .isFalse (fun hc => by injection hc with ha hb; exact h hb)

/-- Decidable equality on key/value lists of `Json`. -/
def jsonKvsDecEq : (xs ys : List (String × Json)) → Decidable (xs = ys)
  | [], [] => .isTrue rfl
  | [], _ :: _ => .isFalse nofun
  | _ :: _, [] => .isFalse nofun
  | (k, v) :: xs, (k2, v2) :: ys =>
    if hk : k = k2 then
      match Json.decEq v v2 with
      | .isFalse h =>
        .isFalse (fun hc => by
          injection hc with h1 h2
          exact h (congrArg Prod.snd h1))
      | .isTrue hv =>
        match jsonKvsDecEq xs ys with
        | .isTrue ht => .isTrue (by rw [hk, hv, ht])
        | .isFalse h => .isFalse (fun hc => by injection hc with ha hb; exact h hb)
    else
      .isFalse (fun hc => by
        injection hc with h1 h2
        exact hk (congrArg Prod.fst h1))

end

instance : DecidableEq Json := Json.decEq

/-- Python truthiness of a JSON value (`if not x`): `None`, `False`, `0`, `""`,
`[]` and `{}` are falsy. -/
def Json.truthy : Json → Bool
  | .null => false
  | .bool b => b
  | .num n => n != 0
  | .str s => s != ""
  | .arr xs => !xs.isEmpty
  | .obj kvs => !kvs.isEmpty

/-- First-match lookup in an association list, mirroring Python `dict`
key lookup (keys of a Python dict are unique, so first-match is exact). -/
def lookupKvs : List (String × Json) → String → Option Json
  | [], _ => none
  | (k, v) :: rest, key => if k = key then some v else lookupKvs rest key

/-- Python `d.get(key)` on a JSON object; `none` when the key is absent. -/
def Json.get : Json → String → Option Json
  | .obj kvs, key => lookupKvs kvs key
  | _, _ => none

/-- Python `d.get(key, default)`. -/
def Json.getD (j : Json) (key : String) (d : Json) : Json :=
  (j.get key).getD d

/-- Python truthiness of a `dict.get` result (`None` when absent). -/
def pyTruthyOpt : Option Json → Bool
  | none => false
  | some v => v.truthy

/-! ### Failover fetchers -/

/-- Observable behaviour of one attempt of `urlopen` + `json.load` in
`fetch_json`: the caught exception classes (`HTTPError`, `URLError`,
`TimeoutError`), an uncaught `json.JSONDecodeError`, or a parsed payload. -/
inductive Attempt where
  | transportError (e : String)
  | malformed (e : String)
  | payload (j : Json)
  deriving DecidableEq

/-- Whether an attempt fails with one of the exception classes that
`fetch_json` catches and retries. -/
def Attempt.isTransport : Attempt → Bool
  | .transportError _ => true
  | _ => false

/-- Python exceptions that can escape the embedded functions. -/
inductive PyExn where
  | jsonDecodeError (e : String)
  deriving DecidableEq

/-- Result of running a Python function: a returned value or an uncaught
exception propagating to the caller. -/
inductive PyResult (α : Type) where
  | val (a : α)
  | exn (e : PyExn)
  deriving DecidableEq

/-- Instrumented result of `fetch_json`: the value returned (or the exception
raised), the number of attempts performed, and the successive `time.sleep`
durations in chronological order. -/
structure FetchTrace where
  result : PyResult Json
  attemptsMade : Nat
  waits : List ℚ
  deriving DecidableEq

/-- Loop body of `fetch_json` (`for attempt in range(1, retries + 1)`).
`attempt` is the 1-based attempt number, `remaining` the iterations left,
`acc` the sleeps so far (reversed), `made` the attempts performed so far.
On a caught error the code sleeps `1.5 ** attempt + random.uniform(0, c)`
(the sampled jitter is the input stream `jitter`) and retries; a parsed
payload returns immediately; a `json.JSONDecodeError` is not caught and
escapes; falling off the loop returns `{}`. -/
def fetchJsonGo (responses : Nat → Attempt) (jitter : Nat → ℚ) :
    Nat → Nat → List ℚ → Nat → FetchTrace
  | _, 0, acc, made => ⟨.val (Json.obj []), made, acc.reverse⟩
  | attempt, remaining + 1, acc, made =>
    match responses attempt with
    | .payload j => ⟨.val j, made + 1, acc.reverse⟩
    | .malformed e => ⟨.exn (.jsonDecodeError e), made + 1, acc.reverse⟩
    | .transportError _ =>
      fetchJsonGo responses jitter (attempt + 1) remaining
        (((3 / 2 : ℚ) ^ attempt + jitter attempt) :: acc) (made + 1)

/-- Embedding of `fetch_json(url, retries)`: attempts are numbered 1..retries. -/
def fetchJson (responses : Nat → Attempt) (jitter : Nat → ℚ) (retries : Nat) :
    FetchTrace :=
  fetchJsonGo responses jitter 1 retries [] 0

/-- Constant `MAX_RETRIES` in `submarine_cable_ingestor.py`. -/
def MAX_RETRIES_cable : Nat := 3

/-- Constant `MAX_RETRIES` in `peeringdb_datasets.py`. -/
def MAX_RETRIES_peeringdb : Nat := 5

instance : DecidableEq (Except String Json) := fun x y =>
  match x, y with
  | .error a, .error b =>
    if h : a = b then .isTrue (by rw [h]) else .isFalse (fun hc => h (by injection hc))
  | .error _, .ok _ => .isFalse nofun
  | .ok _, .error _ => .isFalse nofun
  | .ok a, .ok b =>
    if h : a = b then .isTrue (by rw [h]) else .isFalse (fun hc => h (by injection hc))

/-- Observable behaviour of one endpoint in the Overpass fetchers: a
`requests.exceptions.RequestException`, or a response with an HTTP status
and a body whose JSON parse either fails (`Except.error`) or yields a
value. -/
inductive EndpointResponse where
  | requestError (e : String)
  | response (status : Nat) (body : Except String Json)
  deriving DecidableEq

/-- Embedding of `fetch_overpass(query)` from `osm_power.py`: try each endpoint once, in
order; skip on request error, non-200 status, JSON decode error, or a falsy
`elements` collection; return the first acceptable payload, `None` when all
endpoints are exhausted. -/
def fetch_overpass : List EndpointResponse → Option Json
  | [] => none
  | .requestError _ :: rest => fetch_overpass rest
  | .response status body :: rest =>
    if status ≠ 200 then fetch_overpass rest
    else
      match body with
      | .error _ => fetch_overpass rest
      | .ok data =>
        if (data.getD "elements" (Json.arr [])).truthy then some data
        else fetch_overpass rest

/-- Embedding of `download_tag(tag)` from `osm_power_node_primary.py`: try each endpoint
once, in order; skip on request error, non-200 status or JSON decode error;
return the first parsed 200 payload (no emptiness check), `None` when all
endpoints are exhausted. -/
def download_tag : List EndpointResponse → Option Json
  | [] => none
  | .requestError _ :: rest => download_tag rest
  | .response status body :: rest =>
    if status ≠ 200 then download_tag rest
    else
      match body with
      | .error _ => download_tag rest
      | .ok data => some data

/-- An endpoint answer on which `fetch_overpass` moves to the next endpoint. -/
def failsOverpass : EndpointResponse → Bool
  | .requestError _ => true
  | .response status body =>
    if status ≠ 200 then true
    else
      match body with
      | .error _ => true
      | .ok data => !(data.getD "elements" (Json.arr [])).truthy

/-! ### Enrichment (`submarine_cable_ingestor.py`) -/

/-- Allow-list `DETAIL_KEYS` from `submarine_cable_ingestor.py`: the allow-list of fields
merged from a detail response. -/
def DETAIL_KEYS : List String :=
  ["length", "landing_points", "owners", "suppliers", "rfs", "rfs_year",
   "is_planned", "notes", "url"]

/-- One element of `[lp.get("name") for lp in ... if lp.get("name")]`:
the `name` value when present and truthy, dropped otherwise. -/
def lpName (lp : Json) : Option Json :=
  match lp.get "name" with
  | some n => if n.truthy then some n else none
  | none => none

/-- The `landing_points` projection: the list comprehension keeping only the
truthy `name` attribute of each landing point. -/
def projectLandingPoints : Json → Json
  | .arr lps => .arr (lps.filterMap lpName)
  | j => j

/-- The value stored in `enriched[key]`: the `landing_points` list is
projected to names, every other key keeps the detail value as is. -/
def enrichedValue (key : String) (v : Json) : Json :=
  if key = "landing_points" then projectLandingPoints v else v

/-- The keys of `L` present in `details`, paired with their (projected)
values, in allow-list order — the loop `for key in DETAIL_KEYS`. -/
def buildEnrichedOver (L : List String) (details : Json) :
    List (String × Json) :=
  L.filterMap (fun key =>
    match details.get key with
    | none => none
    | some v => some (key, enrichedValue key v))

/-- The `enriched` dict built by `enrich_feature` from a detail payload. -/
def buildEnriched (details : Json) : List (String × Json) :=
  buildEnrichedOver DETAIL_KEYS details

/-- Assignment `d[key] = v` on a Python dict: replace the value in place when the key
exists, append the pair otherwise. -/
def setKey : List (String × Json) → String → Json → List (String × Json)
  | [], key, v => [(key, v)]
  | (k, w) :: rest, key, v =>
    if k = key then (k, v) :: rest else (k, w) :: setKey rest key v

/-- Update `d.update(news)` on a Python dict. -/
def updateObj (kvs news : List (String × Json)) : List (String × Json) :=
  news.foldl (fun acc kv => setKey acc kv.1 kv.2) kvs

/-- Mutation `feature["properties"].update(enriched)`: rewrite the value stored under
`"properties"` (necessarily an object at the call site), leaving every other
entry of the feature untouched. -/
def updateProps : List (String × Json) → List (String × Json) →
    List (String × Json)
  | [], _ => []
  | (k, v) :: rest, enriched =>
    if k = "properties" then
      (k, match v with
          | Json.obj pkvs => Json.obj (updateObj pkvs enriched)
          | w => w) :: rest
    else (k, v) :: updateProps rest enriched

/-- Identity lookup `feature.get("properties", dict()).get("id")`. -/
def cableId (feature : Json) : Option Json :=
  (feature.getD "properties" (Json.obj [])).get "id"

/-- Embedding of `enrich_feature(feature)`.  `details` is the payload that
`fetch_json(detail_url)` returns for this feature (`{}` after exhausted
retries).  The Bool records whether the detail fetch was performed: `false`
exactly on the early return for a falsy id. -/
def enrich_feature (details : Json) (feature : Json) : Json × Bool :=
  if !(pyTruthyOpt (cableId feature)) then (feature, false)
  else if !details.truthy then (feature, true)
  else
    match feature with
    | Json.obj kvs => (Json.obj (updateProps kvs (buildEnriched details)), true)
    | j => (j, true)

/-! ### Concurrent pipeline (`main` of `submarine_cable_ingestor.py`) -/

/-- The enriched feature produced for input position `i`: the submitted task
`executor.submit(enrich_feature, f)` for the `i`-th feature, with `details i`
the payload its detail fetch resolves to. -/
def itemResult (features : List Json) (details : Nat → Json) (i : Nat) : Json :=
  (enrich_feature (details i) (features.getD i Json.null)).1

/-- The `results` list built by the `as_completed` loop of `main`: completed
futures are appended in completion order, given by the index list
`completionOrder` (a permutation of the input positions).  This is the run
in which no detail fetch raises; `pipelineRun` below also covers raising
fetches. -/
def pipelineResults (features : List Json) (details : Nat → Json)
    (completionOrder : List Nat) : List Json :=
  completionOrder.map (itemResult features details)

/-- Full behaviour of `enrich_feature` including the case where its call to
`fetch_json(detail_url)` raises: the exception propagates out of
`enrich_feature` (nothing catches it there). -/
def enrichFeatureRun (details : PyResult Json) (feature : Json) :
    PyResult (Json × Bool) :=
  if !(pyTruthyOpt (cableId feature)) then .val (feature, false)
  else
    match details with
    | .exn e => .exn e
    | .val d => .val (enrich_feature d feature)

/-- Loop of `main` over completed futures with an accumulator: the first
`future.result()` that re-raises a worker exception aborts the loop (and
the run — `main` catches nothing), discarding all results. -/
def pipelineRunGo (features : List Json) (details : Nat → PyResult Json) :
    List Nat → List Json → PyResult (List Json)
  | [], acc => .val acc.reverse
  | i :: rest, acc =>
    match enrichFeatureRun (details i) (features.getD i Json.null) with
    | .exn e => .exn e
    | .val (f, _) => pipelineRunGo features details rest (f :: acc)

/-- The enrichment pipeline of `main`, with exception propagation. -/
def pipelineRun (features : List Json) (details : Nat → PyResult Json)
    (completionOrder : List Nat) : PyResult (List Json) :=
  pipelineRunGo features details completionOrder []

/-! ### Concrete scenarios used in counterexamples and witnesses -/

/-- Jitter stream that always samples 0. -/
def jitter0 : Nat → ℚ := fun _ => 0

/-- Upstream scenario: every attempt raises a caught transport error. -/
def respAllFail : Nat → Attempt := fun _ => .transportError "connection refused"

/-- Upstream scenario: every attempt succeeds with the empty JSON object. -/
def respEmptyOk : Nat → Attempt := fun _ => .payload (Json.obj [])

/-- Upstream scenario: every attempt receives an unparseable body. -/
def respMalformed : Nat → Attempt := fun _ => .malformed "Expecting value"

/-- Upstream scenario: the first attempt receives an unparseable body, every
later attempt would succeed. -/
def respMalformedThenOk : Nat → Attempt := fun n =>
  if n = 1 then .malformed "Expecting value"
  else .payload (Json.obj [("ok", Json.bool true)])

/-- Upstream scenario: the first attempt raises a caught transport error,
every later attempt receives an unparseable body. -/
def respTransportThenMalformed : Nat → Attempt := fun n =>
  if n = 1 then .transportError "connection refused"
  else .malformed "Expecting value"

/-- Feature with identity `"a"` and no other properties. -/
def cexFeatureA : Json := Json.obj [("properties", Json.obj [("id", Json.str "a")])]

/-- Feature with identity `"b"` and no other properties. -/
def cexFeatureB : Json := Json.obj [("properties", Json.obj [("id", Json.str "b")])]

/-- Detail payload carrying one allow-listed field. -/
def cexDetails : Nat → Json := fun _ => Json.obj [("notes", Json.str "n")]

/-- Expected enrichment of `cexFeatureA` under `cexDetails`. -/
def cexEnrichedA : Json :=
  Json.obj [("properties", Json.obj [("id", Json.str "a"), ("notes", Json.str "n")])]

/-- Expected enrichment of `cexFeatureB` under `cexDetails`. -/
def cexEnrichedB : Json :=
  Json.obj [("properties", Json.obj [("id", Json.str "b"), ("notes", Json.str "n")])]

/-- Overpass payload whose `elements` collection is empty. -/
def emptyElements : Json := Json.obj [("elements", Json.arr [])]

/-- Overpass payload with one element. -/
def someElements : Json :=
  Json.obj [("elements", Json.arr [Json.obj [("id", Json.num 1)]])]

/-- Detail payload with an allow-listed scalar, a `landing_points` list (one
entry with a name, one without), and a field outside the allow-list. -/
def detailSample : Json :=
  Json.obj [("length", Json.str "1,000 km"),
            ("landing_points",
             Json.arr [Json.obj [("id", Json.num 7), ("name", Json.str "City A")],
                       Json.obj [("id", Json.num 8)]]),
            ("extra", Json.str "dropped")]

/-- Properties mapping of a sample feature before enrichment. -/
def propsSample : List (String × Json) :=
  [("id", Json.str "cable-1"), ("name", Json.str "Cable One")]

/-- Sample feature with identity, a prior property and a geometry. -/
def featureSample : Json :=
  Json.obj [("type", Json.str "Feature"),
            ("properties", Json.obj propsSample),
            ("geometry", Json.obj [("type", Json.str "LineString")])]

/-- Detail oracle where every item's fetch succeeds with `detailSample`. -/
def dGood : Nat → Json := fun _ => detailSample

/-- Detail oracle where item 1's fetch exhausts its retries (returning the
empty object) and every other item's fetch succeeds. -/
def dOneFail : Nat → Json := fun i => if i = 1 then Json.obj [] else detailSample

/-! ### Helper lemmas -/

theorem lookupKvs_setKey_ne (kvs : List (String × Json)) (k : String) (v : Json)
    (key : String) (hne : key ≠ k) :
    lookupKvs (setKey kvs k v) key = lookupKvs kvs key := by
  induction kvs with
  | nil => simp [setKey, lookupKvs, Ne.symm hne]
  | cons hd tl ih =>
    obtain ⟨k0, w⟩ := hd
    by_cases hk : k0 = k
    · subst hk
      simp [setKey, lookupKvs, Ne.symm hne]
    · simp [setKey, hk, lookupKvs]
      by_cases hk0 : k0 = key
      · simp [hk0]
      · simp [hk0, ih]

theorem lookupKvs_updateObj_not_mem (news : List (String × Json)) :
    ∀ (kvs : List (String × Json)) (key : String),
      key ∉ news.map Prod.fst →
      lookupKvs (updateObj kvs news) key = lookupKvs kvs key := by
  induction news with
  | nil => intro kvs key _; rfl
  | cons hd tl ih =>
    intro kvs key hmem
    simp only [List.map_cons, List.mem_cons, not_or] at hmem
    have step : updateObj kvs (hd :: tl) = updateObj (setKey kvs hd.1 hd.2) tl := rfl
    rw [step, ih _ key hmem.2, lookupKvs_setKey_ne _ _ _ _ hmem.1]

theorem mem_buildEnrichedOver {L : List String} {details : Json}
    {kv : String × Json} (h : kv ∈ buildEnrichedOver L details) :
    kv.1 ∈ L ∧ ∃ v, details.get kv.1 = some v ∧ kv.2 = enrichedValue kv.1 v := by
  simp only [buildEnrichedOver, List.mem_filterMap] at h
  obtain ⟨key, hkey, hf⟩ := h
  cases hv : details.get key with
  | none => rw [hv] at hf; exact absurd hf (by simp)
  | some v =>
    rw [hv] at hf
    simp only [Option.some.injEq] at hf
    subst hf
    exact ⟨hkey, v, hv, rfl⟩

theorem lookupKvs_buildEnrichedOver (L : List String) (details : Json)
    (k0 : String) (v : Json) (hmem : k0 ∈ L) (hv : details.get k0 = some v) :
    lookupKvs (buildEnrichedOver L details) k0 = some (enrichedValue k0 v) := by
  induction L with
  | nil => cases hmem
  | cons k tl ih =>
    by_cases hk : k = k0
    · subst hk
      simp [buildEnrichedOver, hv, lookupKvs]
    · have hmem' : k0 ∈ tl := by
        cases hmem with
        | head => exact absurd rfl hk
        | tail _ h => exact h
      cases hget : details.get k with
      | none =>
        simpa [buildEnrichedOver, hget] using ih hmem'
      | some w =>
        simpa [buildEnrichedOver, hget, lookupKvs, hk] using ih hmem'

theorem not_mem_buildEnriched_of_get_none {details : Json} {key : String}
    (h : details.get key = none) :
    key ∉ (buildEnriched details).map Prod.fst := by
  intro hmem
  simp only [List.mem_map] at hmem
  obtain ⟨kv, hkv, hfst⟩ := hmem
  obtain ⟨-, v, hv, -⟩ := mem_buildEnrichedOver hkv
  rw [hfst] at hv
  rw [h] at hv
  cases hv

theorem lookupKvs_updateProps_ne (kvs enriched : List (String × Json))
    (key : String) (hne : key ≠ "properties") :
    lookupKvs (updateProps kvs enriched) key = lookupKvs kvs key := by
  induction kvs with
  | nil => rfl
  | cons hd tl ih =>
    obtain ⟨k, v⟩ := hd
    by_cases hk : k = "properties"
    · subst hk
      simp [updateProps, lookupKvs, Ne.symm hne]
    · simp [updateProps, hk, lookupKvs]
      by_cases hk0 : k = key
      · simp [hk0]
      · simp [hk0, ih]

theorem lookupKvs_updateProps_props (kvs enriched : List (String × Json)) :
    lookupKvs (updateProps kvs enriched) "properties" =
      (lookupKvs kvs "properties").map (fun v =>
        match v with
        | Json.obj pkvs => Json.obj (updateObj pkvs enriched)
        | w => w) := by
  induction kvs with
  | nil => rfl
  | cons hd tl ih =>
    obtain ⟨k, v⟩ := hd
    by_cases hk : k = "properties"
    · subst hk
      simp [updateProps, lookupKvs]
    · simp [updateProps, hk, lookupKvs, ih]

theorem fetchJsonGo_allFail (responses : Nat → Attempt) (jitter : Nat → ℚ) :
    ∀ (remaining attempt : Nat) (acc : List ℚ) (made : Nat),
      (∀ i, attempt ≤ i → i < attempt + remaining →
        (responses i).isTransport = true) →
      fetchJsonGo responses jitter attempt remaining acc made =
        ⟨.val (Json.obj []), made + remaining,
         acc.reverse ++ (List.range remaining).map
           (fun k => (3 / 2 : ℚ) ^ (attempt + k) + jitter (attempt + k))⟩ := by
  intro remaining
  induction remaining with
  | zero => intro attempt acc made _; simp [fetchJsonGo]
  | succ r ih =>
    intro attempt acc made hfail
    have hhead : (responses attempt).isTransport = true :=
      hfail attempt le_rfl (by omega)
    cases hresp : responses attempt with
    | payload j => rw [hresp] at hhead; cases hhead
    | malformed e => rw [hresp] at hhead; cases hhead
    | transportError e =>
      have hrec := ih (attempt + 1)
        (((3 / 2 : ℚ) ^ attempt + jitter attempt) :: acc) (made + 1)
        (fun i h1 h2 => hfail i (by omega) (by omega))
      have hgoal : fetchJsonGo responses jitter attempt (r + 1) acc made =
          fetchJsonGo responses jitter (attempt + 1) r
            (((3 / 2 : ℚ) ^ attempt + jitter attempt) :: acc) (made + 1) := by
        rw [fetchJsonGo, hresp]
      rw [hgoal, hrec]
      have hrange : (List.range (r + 1)).map
            (fun k => (3 / 2 : ℚ) ^ (attempt + k) + jitter (attempt + k)) =
          ((3 / 2 : ℚ) ^ attempt + jitter attempt) ::
            (List.range r).map
              (fun k => (3 / 2 : ℚ) ^ (attempt + 1 + k) + jitter (attempt + 1 + k)) := by
        rw [List.range_succ_eq_map, List.map_cons, List.map_map]
        have harg : ((fun k => (3 / 2 : ℚ) ^ (attempt + k) + jitter (attempt + k))
              ∘ Nat.succ) =
            (fun k => (3 / 2 : ℚ) ^ (attempt + 1 + k) + jitter (attempt + 1 + k)) := by
          funext k
          have h : attempt + Nat.succ k = attempt + 1 + k := by omega
          simp only [Function.comp_apply, h]
        rw [harg, Nat.add_zero]
      rw [hrange]
      simp only [FetchTrace.mk.injEq]
      refine ⟨trivial, by omega, ?_⟩
      simp

/-- All attempts numbered 1..retries fail with a caught exception class. -/
def allTransport (responses : Nat → Attempt) (retries : Nat) : Prop :=
  ∀ i, 1 ≤ i → i ≤ retries → (responses i).isTransport = true

theorem fetchJson_allFail (responses : Nat → Attempt) (jitter : Nat → ℚ)
    (retries : Nat) (hfail : allTransport responses retries) :
    fetchJson responses jitter retries =
      ⟨.val (Json.obj []), retries,
       (List.range retries).map
         (fun k => (3 / 2 : ℚ) ^ (1 + k) + jitter (1 + k))⟩ := by
  have h := fetchJsonGo_allFail responses jitter retries 1 [] 0
    (fun i h1 h2 => hfail i h1 (by omega))
  rw [fetchJson, h]
  simp

theorem fetchJsonGo_malformed (responses : Nat → Attempt) (jitter : Nat → ℚ)
    (e : String) :
    ∀ (k attempt remaining : Nat) (acc : List ℚ) (made : Nat),
      k < remaining →
      (∀ i, attempt ≤ i → i < attempt + k → (responses i).isTransport = true) →
      responses (attempt + k) = .malformed e →
      (fetchJsonGo responses jitter attempt remaining acc made).result =
          .exn (.jsonDecodeError e) ∧
      (fetchJsonGo responses jitter attempt remaining acc made).attemptsMade =
          made + k + 1 := by
  intro k
  induction k with
  | zero =>
    intro attempt remaining acc made hlt _ hmal
    cases remaining with
    | zero => omega
    | succ r =>
      rw [show attempt + 0 = attempt from rfl] at hmal
      simp [fetchJsonGo, hmal]
  | succ n ih =>
    intro attempt remaining acc made hlt htrans hmal
    cases remaining with
    | zero => omega
    | succ r =>
      have hhead : (responses attempt).isTransport = true :=
        htrans attempt le_rfl (by omega)
      cases hresp : responses attempt with
      | payload j => rw [hresp] at hhead; cases hhead
      | malformed e2 => rw [hresp] at hhead; cases hhead
      | transportError e2 =>
        have hgoal : fetchJsonGo responses jitter attempt (r + 1) acc made =
            fetchJsonGo responses jitter (attempt + 1) r
              (((3 / 2 : ℚ) ^ attempt + jitter attempt) :: acc) (made + 1) := by
          rw [fetchJsonGo, hresp]
        rw [hgoal]
        have hrec := ih (attempt + 1) r
          (((3 / 2 : ℚ) ^ attempt + jitter attempt) :: acc) (made + 1)
          (by omega) (fun i h1 h2 => htrans i (by omega) (by omega))
          (by rw [show attempt + 1 + n = attempt + (n + 1) from by omega]
              exact hmal)
        exact ⟨hrec.1, by rw [hrec.2]; omega⟩

theorem fetch_overpass_skip (r : EndpointResponse)
    (rest : List EndpointResponse) (hfail : failsOverpass r = true) :
    fetch_overpass (r :: rest) = fetch_overpass rest := by
  cases r with
  | requestError e => rfl
  | response status body =>
    by_cases hs : status = 200
    · subst hs
      cases body with
      | error e => rfl
      | ok data =>
        have hempty : (data.getD "elements" (Json.arr [])).truthy = false := by
          simpa [failsOverpass] using hfail
        simp [fetch_overpass, hempty]
    · simp [fetch_overpass, hs]

theorem fetch_overpass_allFail (rs : List EndpointResponse)
    (hfail : ∀ r ∈ rs, failsOverpass r = true) :
    fetch_overpass rs = none := by
  induction rs with
  | nil => rfl
  | cons r rest ih =>
    rw [fetch_overpass_skip r rest (hfail r (by simp))]
    exact ih (fun x hx => hfail x (by simp [hx]))

theorem enrich_feature_failedFetch (feature : Json) :
    (enrich_feature (Json.obj []) feature).1 = feature := by
  cases hid : pyTruthyOpt (cableId feature) <;>
    simp [enrich_feature, hid, Json.truthy]

theorem enrichFeatureRun_val (d : Json) (feature : Json) :
    enrichFeatureRun (.val d) feature = .val (enrich_feature d feature) := by
  cases hid : pyTruthyOpt (cableId feature) <;>
    simp [enrichFeatureRun, enrich_feature, hid]

theorem pipelineRunGo_val (features : List Json) (d : Nat → Json) :
    ∀ (order : List Nat) (acc : List Json),
      pipelineRunGo features (fun i => .val (d i)) order acc =
        .val (acc.reverse ++ order.map (itemResult features d)) := by
  intro order
  induction order with
  | nil => intro acc; simp [pipelineRunGo]
  | cons i rest ih =>
    intro acc
    rw [pipelineRunGo, enrichFeatureRun_val]
    show pipelineRunGo features (fun i => .val (d i)) rest
        ((enrich_feature (d i) (features.getD i Json.null)).1 :: acc) = _
    rw [ih]
    simp [itemResult]

/-- When no detail fetch raises, the exception-aware pipeline returns the
plain completion-order results. -/
theorem pipelineRun_val (features : List Json) (d : Nat → Json)
    (completionOrder : List Nat) :
    pipelineRun features (fun i => .val (d i)) completionOrder =
      .val (pipelineResults features d completionOrder) := by
  rw [pipelineRun, pipelineRunGo_val]
  simp [pipelineResults]

/-! ### Claims -/

/-- C1 counterexample: with two distinct features and completion order
`[1, 0]`, `main` appends results in completion order, so the returned
collection is the enriched input reversed, not in input order. -/
theorem C1_counterexample :
    pipelineResults [cexFeatureA, cexFeatureB] cexDetails [1, 0] =
      [cexEnrichedB, cexEnrichedA] ∧
    (List.range 2).map (itemResult [cexFeatureA, cexFeatureB] cexDetails) =
      [cexEnrichedA, cexEnrichedB] ∧
    pipelineResults [cexFeatureA, cexFeatureB] cexDetails [1, 0] ≠
      (List.range 2).map (itemResult [cexFeatureA, cexFeatureB] cexDetails) := by
  exact ⟨by decide, by decide, by decide⟩

/-- C1 (amended): the pipeline's output is the pointwise-enriched input
reordered by completion order — a permutation of the in-input-order
enrichment, with equality only when completion order is the identity; the
order of the output equals completion order, not input order. -/
theorem C1_output_perm (features : List Json) (details : Nat → Json)
    (completionOrder : List Nat)
    (hperm : completionOrder.Perm (List.range features.length)) :
    (pipelineResults features details completionOrder).Perm
      ((List.range features.length).map (itemResult features details)) :=
  hperm.map (itemResult features details)

/-- C1 (amended) witness at the concrete two-feature scenario. -/
theorem C1_output_perm_witness :
    (pipelineResults [cexFeatureA, cexFeatureB] cexDetails [1, 0]).Perm
      ((List.range 2).map (itemResult [cexFeatureA, cexFeatureB] cexDetails)) :=
  C1_output_perm [cexFeatureA, cexFeatureB] cexDetails [1, 0] (by decide)

/-- C2 counterexample: after exhausting all retries on transport errors,
`fetch_json` returns exactly the value it also returns for a first-attempt
success with an empty payload — the plain empty object, carrying neither the
last error nor the attempt count, hence not a distinguished Failure variant;
and an unparseable body makes an uncaught exception escape to the caller. -/
theorem C2_counterexample :
    (fetchJson respAllFail jitter0 3).result =
      (fetchJson respEmptyOk jitter0 3).result ∧
    (fetchJson respAllFail jitter0 3).result = .val (Json.obj []) ∧
    (fetchJson respMalformed jitter0 3).result =
      .exn (.jsonDecodeError "Expecting value") := by
  exact ⟨rfl, rfl, rfl⟩

/-- C2 (amended): when every attempt fails with a caught transport error,
`fetch_json` returns the empty JSON object after exactly `retries` attempts
and raises nothing, but the returned value carries neither the last
observed error nor the attempt count; `fetch_overpass` returns `None` once
every endpoint answer fails. -/
theorem C2_exhaustion (responses : Nat → Attempt) (jitter : Nat → ℚ)
    (retries : Nat) (hfail : allTransport responses retries) :
    (fetchJson responses jitter retries).result = .val (Json.obj []) ∧
    (fetchJson responses jitter retries).attemptsMade = retries ∧
    ∀ rs : List EndpointResponse, (∀ r ∈ rs, failsOverpass r = true) →
      fetch_overpass rs = none := by
  rw [fetchJson_allFail responses jitter retries hfail]
  exact ⟨rfl, rfl, fetch_overpass_allFail⟩

/-- C2 (amended) witness: three failing attempts, and one failing endpoint. -/
theorem C2_exhaustion_witness :
    (fetchJson respAllFail jitter0 3).result = .val (Json.obj []) ∧
    (fetchJson respAllFail jitter0 3).attemptsMade = 3 ∧
    fetch_overpass [.requestError "timeout"] = none := by
  have h := C2_exhaustion respAllFail jitter0 3 (fun _ _ _ => rfl)
  exact ⟨h.1, h.2.1, h.2.2 [.requestError "timeout"] (by decide)⟩

/-- C3 counterexample: an unparseable body on the first attempt is not
retried: `fetch_json` escapes with the decode exception after one attempt
and no backoff sleep, even though the next attempt would have succeeded. -/
theorem C3_counterexample :
    (fetchJson respMalformedThenOk jitter0 3).result =
      .exn (.jsonDecodeError "Expecting value") ∧
    (fetchJson respMalformedThenOk jitter0 3).attemptsMade = 1 ∧
    (fetchJson respMalformedThenOk jitter0 3).waits = [] := by
  exact ⟨rfl, rfl, rfl⟩

/-- C3 (amended): `fetch_json` does not catch JSON parse errors — a
malformed body on the first attempt escapes to the caller at once, with no
retry and no backoff, whatever retry budget remains; `fetch_overpass`
catches decode errors but moves to the next endpoint rather than retrying
under backoff (it has no per-endpoint retries at all). -/
theorem C3_malformed_escapes (rest : Nat → Attempt) (jitter : Nat → ℚ)
    (R : Nat) (e : String) :
    fetchJson (fun n => if n = 1 then .malformed e else rest n) jitter (R + 1) =
      ⟨.exn (.jsonDecodeError e), 1, []⟩ ∧
    ∀ (e2 : String) (rs : List EndpointResponse),
      fetch_overpass (.response 200 (.error e2) :: rs) = fetch_overpass rs := by
  constructor
  · simp [fetchJson, fetchJsonGo]
  · intro e2 rs; rfl

/-- C4 counterexample: with retry ceiling 3 and every attempt failing — each
body received but unparseable, a failed attempt in the spec's taxonomy —
`fetch_json` performs exactly one attempt, not 3: the parse error raises out
of the retry loop. -/
theorem C4_counterexample :
    (fetchJson respMalformed jitter0 3).attemptsMade = 1 ∧
    (fetchJson respMalformed jitter0 3).attemptsMade ≠ 3 := by
  exact ⟨rfl, by decide⟩

/-- C4 (amended): with retry ceiling `R`, a request on which every attempt
fails with one of the caught exception classes is attempted exactly `R`
times before `fetch_json` gives up; but when a malformed body arrives at
attempt `a` (after caught failures), the decode error raises out of the
loop and exactly `a` attempts are made, short of the ceiling. -/
theorem C4_retry_ceiling (responses : Nat → Attempt) (jitter : Nat → ℚ)
    (R : Nat) (hfail : allTransport responses R) :
    (fetchJson responses jitter R).attemptsMade = R ∧
    (∀ (r2 : Nat → Attempt) (j2 : Nat → ℚ) (a : Nat) (e : String),
      1 ≤ a → a ≤ R →
      (∀ i, 1 ≤ i → i < a → (r2 i).isTransport = true) →
      r2 a = .malformed e →
      (fetchJson r2 j2 R).attemptsMade = a ∧
      (fetchJson r2 j2 R).result = .exn (.jsonDecodeError e)) := by
  constructor
  · rw [fetchJson_allFail responses jitter R hfail]
  · intro r2 j2 a e ha1 haR htrans hmal
    have h := fetchJsonGo_malformed r2 j2 e (a - 1) 1 R [] 0 (by omega)
      (fun i h1 h2 => htrans i h1 (by omega))
      (by rw [show 1 + (a - 1) = a from by omega]; exact hmal)
    exact ⟨by rw [fetchJson, h.2]; omega, by rw [fetchJson]; exact h.1⟩

/-- C4 (amended) witness: three caught failures reach the ceiling; a caught
failure followed by a malformed body stops after two attempts. -/
theorem C4_retry_ceiling_witness :
    (fetchJson respAllFail jitter0 3).attemptsMade = 3 ∧
    (fetchJson respTransportThenMalformed jitter0 3).attemptsMade = 2 ∧
    (fetchJson respTransportThenMalformed jitter0 3).result =
      .exn (.jsonDecodeError "Expecting value") := by
  have h := C4_retry_ceiling respAllFail jitter0 3 (fun _ _ _ => rfl)
  have h2 := h.2 respTransportThenMalformed jitter0 2 "Expecting value"
    (by omega) (by omega)
    (fun i h1 h2 => by
      have hi : i = 1 := by omega
      subst hi; rfl) rfl
  exact ⟨h.1, h2.1, h2.2⟩

/-- C5 counterexample: a detail fetch whose body is malformed JSON raises
through `enrich_feature` and `future.result()`, aborting the whole pipeline
run and discarding every other item's outcome — the failure is not isolated
to the failing item. -/
theorem C5_counterexample :
    pipelineRun [cexFeatureA, cexFeatureB]
      (fun i => if i = 0 then .exn (.jsonDecodeError "bad")
                else .val (cexDetails i)) [0, 1] =
      .exn (.jsonDecodeError "bad") := by
  decide

/-- C5 (amended): a detail-fetch failure that the fetcher reports by its
terminal empty-object return degrades exactly that item to its
pre-enrichment state, leaves every other item's enrichment outcome exactly
as under a fully successful oracle, and still emits one result per
completion; a malformed detail body, by contrast, raises an uncaught
exception that aborts the whole run (see the counterexample). -/
theorem C5_isolation (features : List Json) (d d2 : Nat → Json) (j : Nat)
    (completionOrder : List Nat) (hfail : d2 j = Json.obj [])
    (hagree : ∀ i, i ≠ j → d2 i = d i) :
    itemResult features d2 j = features.getD j Json.null ∧
    (∀ i, i ≠ j → itemResult features d2 i = itemResult features d i) ∧
    (pipelineResults features d2 completionOrder).length =
      completionOrder.length := by
  refine ⟨?_, ?_, by simp [pipelineResults]⟩
  · unfold itemResult
    rw [hfail]
    exact enrich_feature_failedFetch _
  · intro i hi
    unfold itemResult
    rw [hagree i hi]

/-- C5 witness: two items, the second one's fetch fails. -/
theorem C5_isolation_witness :
    itemResult [featureSample, featureSample] dOneFail 1 =
      [featureSample, featureSample].getD 1 Json.null ∧
    itemResult [featureSample, featureSample] dOneFail 0 =
      itemResult [featureSample, featureSample] dGood 0 := by
  have h := C5_isolation [featureSample, featureSample] dGood dOneFail 1 [0, 1]
    rfl (fun i hi => by simp [dOneFail, dGood, hi])
  exact ⟨h.1, h.2.1 0 (by decide)⟩

/-- C6 counterexample: `download_tag` serves a bulk enumeration query, yet
it returns a 200 JSON response whose `elements` collection is empty instead
of moving on to the next endpoint (which would have returned a non-empty
payload); `fetch_overpass` on the same answers does move on. -/
theorem C6_counterexample :
    download_tag [.response 200 (.ok emptyElements),
                  .response 200 (.ok someElements)] = some emptyElements ∧
    fetch_overpass [.response 200 (.ok emptyElements),
                    .response 200 (.ok someElements)] = some someElements := by
  exact ⟨rfl, by decide⟩

/-- C6 (amended): the empty-result check is per fetcher, not per request
type: `fetch_overpass` treats a parsed 200 response with a falsy `elements`
collection as a failed attempt and moves on, while `download_tag` (also a
bulk fetcher) returns any parsed 200 payload, and the single-resource
`fetch_json` accepts any parsed payload, empty or missing fields included. -/
theorem C6_empty_policy :
    (∀ (data : Json) (rs : List EndpointResponse),
      (data.getD "elements" (Json.arr [])).truthy = false →
      fetch_overpass (.response 200 (.ok data) :: rs) = fetch_overpass rs) ∧
    (∀ (data : Json) (rs : List EndpointResponse),
      download_tag (.response 200 (.ok data) :: rs) = some data) ∧
    (∀ (j : Json) (jitter : Nat → ℚ) (R : Nat),
      (fetchJson (fun _ => .payload j) jitter (R + 1)).result = .val j) := by
  refine ⟨?_, ?_, ?_⟩
  · intro data rs hempty
    exact fetch_overpass_skip _ rs (by simp [failsOverpass, hempty])
  · intro data rs; rfl
  · intro j jitter R; rfl

/-- C6 (amended) witness at concrete payloads. -/
theorem C6_empty_policy_witness :
    fetch_overpass [.response 200 (.ok emptyElements),
                    .response 200 (.ok someElements)] =
      fetch_overpass [.response 200 (.ok someElements)] ∧
    download_tag [.response 200 (.ok emptyElements)] = some emptyElements ∧
    (fetchJson (fun _ => .payload (Json.obj [])) jitter0 3).result =
      .val (Json.obj []) := by
  exact ⟨C6_empty_policy.1 emptyElements _ (by decide),
         C6_empty_policy.2.1 emptyElements _,
         C6_empty_policy.2.2 (Json.obj []) jitter0 2⟩

/-- C7: the merge retains only allow-listed fields, projects the
`landing_points` list to the truthy `name` attributes of its entries, and
leaves every properties key absent from the detail record untouched. -/
theorem C7_merge (details : Json) (props : List (String × Json)) :
    (∀ kv ∈ buildEnriched details, kv.1 ∈ DETAIL_KEYS) ∧
    (∀ lps : List Json, details.get "landing_points" = some (.arr lps) →
      lookupKvs (buildEnriched details) "landing_points" =
        some (.arr (lps.filterMap lpName))) ∧
    (∀ key, details.get key = none →
      lookupKvs (updateObj props (buildEnriched details)) key =
        lookupKvs props key) := by
  refine ⟨?_, ?_, ?_⟩
  · intro kv hkv
    exact (mem_buildEnrichedOver hkv).1
  · intro lps hlps
    unfold buildEnriched
    rw [lookupKvs_buildEnrichedOver DETAIL_KEYS details "landing_points"
      (.arr lps) (by decide) hlps]
    simp [enrichedValue, projectLandingPoints]
  · intro key hkey
    exact lookupKvs_updateObj_not_mem _ props key
      (not_mem_buildEnriched_of_get_none hkey)

/-- C7 witness: the sample detail keeps `length`, projects `landing_points`
to the one named entry, and does not touch the prior `name` property. -/
theorem C7_merge_witness :
    (("length", Json.str "1,000 km") : String × Json).1 ∈ DETAIL_KEYS ∧
    lookupKvs (buildEnriched detailSample) "landing_points" =
      some (Json.arr [Json.str "City A"]) ∧
    lookupKvs (updateObj propsSample (buildEnriched detailSample)) "name" =
      lookupKvs propsSample "name" := by
  have h := C7_merge detailSample propsSample
  refine ⟨h.1 ("length", Json.str "1,000 km") (by decide), ?_,
          h.2.2 "name" (by decide)⟩
  have h2 := h.2.1
    [Json.obj [("id", Json.num 7), ("name", Json.str "City A")],
     Json.obj [("id", Json.num 8)]] (by decide)
  rw [h2]
  decide

/-- C8: when every attempt fails with a caught error, the k-th sleep equals
`base ^ attempt` plus the jitter sampled for that attempt; the deterministic
component grows monotonically with the attempt count, and with the jitter in
its fixed bounded range each delay is bounded by the deterministic component
plus the jitter ceiling. -/
theorem C8_backoff (responses : Nat → Attempt) (jitter : Nat → ℚ) (R : Nat)
    (hfail : allTransport responses R)
    (hjit : ∀ i, 0 ≤ jitter i ∧ jitter i ≤ 3 / 10) :
    (fetchJson responses jitter R).waits =
      (List.range R).map (fun k => (3 / 2 : ℚ) ^ (1 + k) + jitter (1 + k)) ∧
    (∀ k, (3 / 2 : ℚ) ^ (1 + k) ≤ (3 / 2 : ℚ) ^ (1 + (k + 1))) ∧
    (∀ k, (3 / 2 : ℚ) ^ (1 + k) + jitter (1 + k) ≤
      (3 / 2 : ℚ) ^ (1 + k) + 3 / 10) := by
  refine ⟨?_, ?_, ?_⟩
  · rw [fetchJson_allFail responses jitter R hfail]
  · intro k
    exact pow_le_pow_right₀ (by norm_num) (by omega)
  · intro k
    have := (hjit (1 + k)).2
    linarith

/-- C8 witness: two failing attempts with zero jitter. -/
theorem C8_backoff_witness :
    (fetchJson respAllFail jitter0 2).waits =
      (List.range 2).map (fun k => (3 / 2 : ℚ) ^ (1 + k) + jitter0 (1 + k)) ∧
    (3 / 2 : ℚ) ^ (1 + 0) ≤ (3 / 2 : ℚ) ^ (1 + (0 + 1)) := by
  have h := C8_backoff respAllFail jitter0 2 (fun _ _ _ => rfl)
    (fun i => ⟨by norm_num [jitter0], by norm_num [jitter0]⟩)
  exact ⟨h.1, h.2.1 0⟩

/-- C9: enrichment only rewrites the `properties` mapping — the feature's
`geometry` value and its `properties.id` identity are unchanged by
`enrich_feature`, whatever the detail payload contains. -/
theorem C9_frame (details : Json) (kvs : List (String × Json)) :
    (enrich_feature details (Json.obj kvs)).1.get "geometry" =
      (Json.obj kvs).get "geometry" ∧
    ((enrich_feature details (Json.obj kvs)).1.get "properties").bind
        (fun p => p.get "id") =
      ((Json.obj kvs).get "properties").bind (fun p => p.get "id") := by
  cases hid : pyTruthyOpt (cableId (Json.obj kvs)) with
  | false => simp [enrich_feature, hid]
  | true =>
    cases hdet : details.truthy with
    | false => simp [enrich_feature, hid, hdet]
    | true =>
      have hres : (enrich_feature details (Json.obj kvs)).1 =
          Json.obj (updateProps kvs (buildEnriched details)) := by
        simp [enrich_feature, hid, hdet]
      rw [hres]
      constructor
      · exact lookupKvs_updateProps_ne kvs _ "geometry" (by decide)
      · show (lookupKvs (updateProps kvs (buildEnriched details)) "properties").bind
            (fun p => p.get "id") =
          (lookupKvs kvs "properties").bind (fun p => p.get "id")
        rw [lookupKvs_updateProps_props]
        cases hp : lookupKvs kvs "properties" with
        | none => rfl
        | some v =>
          rcases v with _ | b | n | s | xs | pkvs
          · rfl
          · rfl
          · rfl
          · rfl
          · rfl
          · show lookupKvs (updateObj pkvs (buildEnriched details)) "id" =
              lookupKvs pkvs "id"
            apply lookupKvs_updateObj_not_mem
            intro hmem
            simp only [List.mem_map] at hmem
            obtain ⟨kv, hkv, hfst⟩ := hmem
            have hdk := (mem_buildEnrichedOver hkv).1
            rw [hfst] at hdk
            exact absurd hdk (by decide)

/-- C10: a falsy identity lookup — `properties` missing, the `id` key
absent, or `id` bound to null, 0 or the empty string — makes
`enrich_feature` return the feature unchanged without performing the detail
fetch; falsy-but-present identities behave exactly like absent ones. -/
theorem C10_falsy_id (details : Json) (feature : Json)
    (h : pyTruthyOpt (cableId feature) = false) :
    enrich_feature details feature = (feature, false) ∧
    pyTruthyOpt none = false ∧
    Json.null.truthy = false ∧
    (Json.num 0).truthy = false ∧
    (Json.str "").truthy = false := by
  refine ⟨?_, rfl, rfl, by decide, by decide⟩
  simp [enrich_feature, h]

/-- C10 witness: a present but falsy id (`0`) yields the unchanged feature
and no fetch. -/
theorem C10_falsy_id_witness :
    enrich_feature detailSample
      (Json.obj [("properties", Json.obj [("id", Json.num 0)])]) =
      (Json.obj [("properties", Json.obj [("id", Json.num 0)])], false) :=
  (C10_falsy_id detailSample
    (Json.obj [("properties", Json.obj [("id", Json.num 0)])]) (by decide)).1

end DailyDataset
